import Mathlib

/-!
Shallow embedding of `src/src/framework/processing/py/port/script.py`, the
Apple Health daily-step extraction pipeline of eyra/port-activity-pilot-ihealth.

The Python pipeline reads a zip archive, locates the member
`apple_health_export/export.xml`, drives a SAX scan over it, collects
step-count records dated on or after 2017-01-01, and aggregates them into
per-day totals via a pandas groupby.

Library semantics are modelled explicitly:
  * A byte stream's SAX scan is abstracted as `XMLDoc`: the list of
    start-element events the scanner delivers, in document order, together
    with a flag `malformed` telling whether the scan ends by detecting a
    well-formedness error (`xml.sax.SAXParseException`) instead of reaching
    a clean end of input.  Empty input and truncated input are instances
    with `malformed := true`.
  * Python exceptions are modelled as the `PyError` value of an `Except`.
  * `datetime.strptime(s, "%Y-%m-%d %H:%M:%S %z")` is modelled on the
    fixed-width form of that format (4-digit year, 2-digit fields, offset
    written as a sign and four digits), which is the form Apple Health
    exports use; `int(s)` is modelled as optional surrounding whitespace,
    an optional sign and a nonempty digit run.
  * A zip archive is a list of (member name, member content) pairs; CPython's
    `ZipFile.open` resolves duplicate member names to the last occurrence.
  * The pandas groupby sum runs on an int64 column whenever every collected
    value fits in signed 64 bits, and such sums wrap silently modulo 2^64;
    see `fitsInt64`, `wrap64` and `dailySteps`.
-/

/-- Python exceptions that can escape the pipeline.  The first three are the
exception classes `script.py` itself defines; the last three are library
exceptions (`zipfile.BadZipFile`, `ValueError`, `KeyError`) that the pipeline
does not define and does not catch. -/
inductive PyError where
  | fileInZipNotFound
  | emptyHealthData
  | invalidXML
  | badZipFile
  | valueError
  | keyError
deriving DecidableEq, Repr

/-- Naive datetime: the fields of a Python `datetime` with `tzinfo=None`. -/
structure NaiveDT where
  year : Nat
  month : Nat
  day : Nat
  hour : Nat
  minute : Nat
  second : Nat
deriving DecidableEq, Repr

/-- Python `datetime` comparison: lexicographic on the fields. -/
def NaiveDT.ltb (a b : NaiveDT) : Bool :=
  if a.year = b.year then
    if a.month = b.month then
      if a.day = b.day then
        if a.hour = b.hour then
          if a.minute = b.minute then
            Nat.blt a.second b.second
          else Nat.blt a.minute b.minute
        else Nat.blt a.hour b.hour
      else Nat.blt a.day b.day
    else Nat.blt a.month b.month
  else Nat.blt a.year b.year

/-- `filter_start_date = datetime(2017, 1, 1)` from `script.py`. -/
def filter_start_date : NaiveDT := ⟨2017, 1, 1, 0, 0, 0⟩

/-- One decimal digit. -/
def parseDigit (c : Char) : Option Nat :=
  if c.isDigit then some (c.toNat - 48) else none

/-- Exactly two digits, returning the value and the rest of the input. -/
def parse2 : List Char → Option (Nat × List Char)
  | a :: b :: rest =>
    match parseDigit a, parseDigit b with
    | some x, some y => some (10 * x + y, rest)
    | _, _ => none
  | _ => none

/-- Exactly four digits, returning the value and the rest of the input. -/
def parse4 : List Char → Option (Nat × List Char)
  | a :: b :: c :: d :: rest =>
    match parseDigit a, parseDigit b, parseDigit c, parseDigit d with
    | some x, some y, some z, some w => some (1000 * x + 100 * y + 10 * z + w, rest)
    | _, _, _, _ => none
  | _ => none

/-- Expect one literal character. -/
def expectChar (c : Char) : List Char → Option (List Char)
  | x :: rest => if x = c then some rest else none
  | [] => none

/-- Gregorian leap year, as `datetime` uses. -/
def isLeap (y : Nat) : Bool :=
  y % 4 = 0 && (y % 100 != 0 || y % 400 = 0)

/-- Length of a month, as `datetime` validates the day against. -/
def daysInMonth (y m : Nat) : Nat :=
  if m = 2 then (if isLeap y then 29 else 28)
  else if m = 4 || m = 6 || m = 9 || m = 11 then 30
  else 31

/-- The `%z` tail in the fixed-width form `±HHMM`, which must end the string:
a sign, two digits of hours and two digits of minutes, the whole offset being
a valid `timezone` offset (strictly less than 24 hours, minutes below 60).
The offset value itself is discarded by `parse_naive_datetime`, so only its
well-formedness matters. -/
def validOffsetTail : List Char → Bool
  | s :: a :: b :: c :: d :: [] =>
    (s = '+' || s = '-') &&
      (match parseDigit a, parseDigit b, parseDigit c, parseDigit d with
       | some h1, some h2, some m1, some m2 =>
         let hh := 10 * h1 + h2
         let mm := 10 * m1 + m2
         decide (mm < 60) && decide (hh * 60 + mm < 24 * 60)
       | _, _, _, _ => false)
  | _ => false

/-- `HealthDataHandler.parse_naive_datetime`:
`datetime.strptime(date_str, "%Y-%m-%d %H:%M:%S %z").replace(tzinfo=None)`.
Parses the wall-clock fields literally as written and validates the timezone
offset, then drops the offset without converting to UTC.  `none` models the
`ValueError` raised by `strptime` (or by the `datetime` constructor's range
checks) on input not matching the format. -/
def parse_naive_datetime (s : String) : Option NaiveDT :=
  match parse4 s.data with
  | none => none
  | some (y, r1) =>
    match expectChar '-' r1 with
    | none => none
    | some r2 =>
      match parse2 r2 with
      | none => none
      | some (mo, r3) =>
        match expectChar '-' r3 with
        | none => none
        | some r4 =>
          match parse2 r4 with
          | none => none
          | some (d, r5) =>
            match expectChar ' ' r5 with
            | none => none
            | some r6 =>
              match parse2 r6 with
              | none => none
              | some (h, r7) =>
                match expectChar ':' r7 with
                | none => none
                | some r8 =>
                  match parse2 r8 with
                  | none => none
                  | some (mi, r9) =>
                    match expectChar ':' r9 with
                    | none => none
                    | some r10 =>
                      match parse2 r10 with
                      | none => none
                      | some (se, r11) =>
                        match expectChar ' ' r11 with
                        | none => none
                        | some r12 =>
                          if validOffsetTail r12 &&
                              decide (1 ≤ y) && decide (1 ≤ mo) && decide (mo ≤ 12) &&
                              decide (1 ≤ d) && decide (d ≤ daysInMonth y mo) &&
                              decide (h ≤ 23) && decide (mi ≤ 59) && decide (se ≤ 59) then
                            some ⟨y, mo, d, h, mi, se⟩
                          else none

/-- Python `int(s)` on strings: optional surrounding whitespace, an optional
sign, then a nonempty run of decimal digits; anything else raises
`ValueError`, modelled as `none`. -/
def pyInt (s : String) : Option Int :=
  let core := (s.data.dropWhile Char.isWhitespace).reverse.dropWhile Char.isWhitespace |>.reverse
  match core with
  | '+' :: rest =>
    if rest ≠ [] ∧ rest.all Char.isDigit then
      some (Int.ofNat (rest.foldl (fun acc c => 10 * acc + (c.toNat - 48)) 0))
    else none
  | '-' :: rest =>
    if rest ≠ [] ∧ rest.all Char.isDigit then
      some (-(Int.ofNat (rest.foldl (fun acc c => 10 * acc + (c.toNat - 48)) 0)))
    else none
  | rest =>
    if rest ≠ [] ∧ rest.all Char.isDigit then
      some (Int.ofNat (rest.foldl (fun acc c => 10 * acc + (c.toNat - 48)) 0))
    else none

/-- One record collected by `StepCountCallback`: a step value appended to
`self.steps` and its start time appended to `self.start_times`. -/
structure StepRec where
  steps : Int
  start_time : NaiveDT
deriving DecidableEq, Repr

/-- `StepCountCallback.__call__`: drop the record when `start_date <
filter_start_date`, otherwise append value and start time to the buffer. -/
def stepCountCallback (buf : List StepRec) (value : Int) (start_date : NaiveDT) :
    List StepRec :=
  if start_date.ltb filter_start_date then buf
  else buf ++ [⟨value, start_date⟩]

/-- A SAX start-element event: tag and attribute list.  Attribute names are
unique in well-formed XML, so plain association-list lookup models
`xml.sax`'s attribute access. -/
structure XEvent where
  tag : String
  attributes : List (String × String)
deriving DecidableEq, Repr

/-- `attributes[k]` without the `KeyError`: association-list lookup. -/
def lookupAttr (attrs : List (String × String)) (k : String) : Option String :=
  match attrs with
  | [] => none
  | (k2, v) :: rest => if k2 = k then some v else lookupAttr rest k

/-- `HealthDataHandler.startElement` together with the callback it invokes:
on a `Record` element whose `type` is `HKQuantityTypeIdentifierStepCount`,
parse `value` with `int` and `startDate` with `parse_naive_datetime`, then
run `StepCountCallback.__call__` on the buffer.  A missing attribute raises
`KeyError`; a failing parse raises `ValueError`; neither is caught anywhere
in the pipeline. -/
def startElement (buf : List StepRec) (tag : String)
    (attributes : List (String × String)) : Except PyError (List StepRec) :=
  if tag = "Record" then
    match lookupAttr attributes "type" with
    | none => .error .keyError
    | some ty =>
      if ty = "HKQuantityTypeIdentifierStepCount" then
        match lookupAttr attributes "value" with
        | none => .error .keyError
        | some vs =>
          match pyInt vs with
          | none => .error .valueError
          | some v =>
            match lookupAttr attributes "startDate" with
            | none => .error .keyError
            | some ds =>
              match parse_naive_datetime ds with
              | none => .error .valueError
              | some dt => .ok (stepCountCallback buf v dt)
      else .ok buf
  else .ok buf

/-- The SAX scan of a byte stream, abstracted: the start-element events the
scanner delivers in document order, and whether the scan then stops by
raising `SAXParseException` (`malformed = true`; empty and truncated input
are instances) or by reaching a clean end of document. -/
structure XMLDoc where
  events : List XEvent
  malformed : Bool
deriving DecidableEq, Repr

/-- Feed the delivered events to `HealthDataHandler` in order, starting from
buffer `buf`; an exception raised by the handler aborts the scan there. -/
def runEvents (buf : List StepRec) : List XEvent → Except PyError (List StepRec)
  | [] => .ok buf
  | ev :: rest =>
    match startElement buf ev.tag ev.attributes with
    | .error e => .error e
    | .ok buf2 => runEvents buf2 rest

/-- `parse_health_data`: drive the SAX scan with the handler installed.  A
handler exception propagates as is (only `SAXParseException` is caught); a
scan failure is wrapped as `InvalidXMLError`; an empty dataframe raises
`EmptyHealthDataError`; otherwise the collected records are returned. -/
def parse_health_data (doc : XMLDoc) : Except PyError (List StepRec) :=
  match runEvents [] doc.events with
  | .error e => .error e
  | .ok recs =>
    if doc.malformed then .error .invalidXML
    else if recs.isEmpty then .error .emptyHealthData
    else .ok recs

/-- Digits of a natural number, zero-padded to width 2 (`strftime` `%m`/`%d`). -/
def pad2 (n : Nat) : String :=
  if n < 10 then "0" ++ toString n else toString n

/-- Digits of a natural number, zero-padded to width 4 (`strftime` `%Y`). -/
def pad4 (n : Nat) : String :=
  if n < 10 then "000" ++ toString n
  else if n < 100 then "00" ++ toString n
  else if n < 1000 then "0" ++ toString n
  else toString n

/-- `dt.strftime("%Y-%m-%d")`: the `Datum` grouping key. -/
def strftimeDate (dt : NaiveDT) : String :=
  pad4 dt.year ++ "-" ++ pad2 dt.month ++ "-" ++ pad2 dt.day

/-- The date key of one collected record. -/
def dateKey (r : StepRec) : String := strftimeDate r.start_time

/-- Code-point comparison of characters, the primitive of Python's `str`
ordering. -/
def charLtb (a b : Char) : Bool := decide (a.toNat < b.toNat)

/-- Lexicographic code-point comparison of character lists: Python's `str`
`<`, which pandas uses to sort the `Datum` group keys. -/
def charListLtb : List Char → List Char → Bool
  | [], [] => false
  | [], _ :: _ => true
  | _ :: _, [] => false
  | a :: as, b :: bs =>
    if charLtb a b then true
    else if charLtb b a then false
    else charListLtb as bs

/-- Python string `<`: lexicographic by code point. -/
def strLtb (a b : String) : Bool := charListLtb a.data b.data

/-- Insert a key into a strictly sorted key list, skipping duplicates: the
order pandas `groupby` (with its default ascending key sort) presents group
keys in. -/
def insertKey (k : String) : List String → List String
  | [] => [k]
  | k2 :: ks =>
    if k = k2 then k2 :: ks
    else if strLtb k k2 then k :: k2 :: ks
    else k2 :: insertKey k ks

/-- The distinct `Datum` keys of the collected records, sorted ascending:
the index of `df.groupby("Datum")`. -/
def groupKeys (recs : List StepRec) : List String :=
  recs.foldl (fun ks r => insertKey (dateKey r) ks) []

/-- The signed 64-bit range test pandas applies when inferring the dtype of
a column of Python ints: int64 is chosen exactly when every value fits. -/
def fitsInt64 (v : Int) : Bool :=
  decide (-(2 ^ 63) ≤ v) && decide (v < 2 ^ 63)

/-- Reduction of an integer into signed 64-bit two's complement, the silent
wrap numpy int64 arithmetic performs on overflow. -/
def wrap64 (n : Int) : Int :=
  if n % 2 ^ 64 < 2 ^ 63 then n % 2 ^ 64 else n % 2 ^ 64 - 2 ^ 64

/-- `df.groupby("Datum")["Aantal stappen"].sum().reset_index()`: one row per
distinct date key, ascending, with the sum of the steps of the records on
that date.  When every collected value fits in int64, `pd.DataFrame` infers
an int64 column and the numpy group sums wrap silently modulo 2^64 into the
signed range; otherwise pandas falls back to an object column of Python
ints and the sums are exact.  (For an all-non-negative column with values
at or above 2^63 pandas would pick uint64; no claim's statement,
counterexample or witness touches that corner, and the hypotheses of the
theorems below exclude it.) -/
def dailySteps (recs : List StepRec) : List (String × Int) :=
  (groupKeys recs).map fun k =>
    (k, if recs.all fun r => fitsInt64 r.steps then
          wrap64 (((recs.filter fun r => dateKey r = k).map StepRec.steps).sum)
        else ((recs.filter fun r => dateKey r = k).map StepRec.steps).sum)

/-- `aggregate_daily_steps`: parse the XML, add the `Datum` column and group
by it, summing `Aantal stappen`. -/
def aggregate_daily_steps (doc : XMLDoc) : Except PyError (List (String × Int)) :=
  match parse_health_data doc with
  | .error e => .error e
  | .ok recs => .ok (dailySteps recs)

/-- What `open_export_zip` can be given: either a path `zipfile.ZipFile`
rejects (raising `zipfile.BadZipFile` before any archive handle exists), or
an openable archive, a list of (member name, member content) pairs whose
members' contents are given by their SAX-scan abstraction. -/
inductive ZipSource where
  | notAZip
  | zip (members : List (String × XMLDoc))
deriving DecidableEq, Repr

/-- `archive.namelist()`. -/
def namelist (members : List (String × XMLDoc)) : List String :=
  members.map Prod.fst

/-- `archive.open(name)`: CPython's `NameToInfo` dictionary maps duplicate
member names to the last occurrence, so lookup resolves to the last match. -/
def zipMemberLast (members : List (String × XMLDoc)) (name : String) : Option XMLDoc :=
  match members with
  | [] => none
  | (n, d) :: rest =>
    match zipMemberLast rest name with
    | some d2 => some d2
    | none => if n = name then some d else none

/-- The literal default of `open_export_zip`'s `file_name` parameter. -/
def export_file_name : String := "apple_health_export/export.xml"

/-- Events on the zip-archive handle: `zipfile.ZipFile(zip_path, "r")`
acquires it, `archive.close()` releases it. -/
inductive HandleEv where
  | acquire
  | release
deriving DecidableEq, Repr

/-- `open_export_zip` run against a body (the `with` block), with the trace
of handle events recorded.  Line by line from the source: `ZipFile` either
fails (`notAZip`: `BadZipFile`, no archive handle acquired) or acquires the
handle; a missing member closes the handle and raises
`FileInZipNotFoundError`; otherwise the body runs on the member's stream and
the `finally` clause closes the handle whether the body returns or raises. -/
def open_export_zip_run {α : Type} (z : ZipSource)
    (body : XMLDoc → Except PyError α) : Except PyError α × List HandleEv :=
  match z with
  | .notAZip => (.error .badZipFile, [])
  | .zip members =>
    match zipMemberLast members export_file_name with
    | none => (.error .fileInZipNotFound, [.acquire, .release])
    | some doc => (body doc, [.acquire, .release])

/-- `aggregate_steps_from_zip`: open the export member and aggregate it. -/
def aggregate_steps_from_zip (z : ZipSource) : Except PyError (List (String × Int)) :=
  (open_export_zip_run z aggregate_daily_steps).fst

/-- `props.Translatable`: a bilingual label. -/
structure Translatable where
  en : String
  nl : String
deriving DecidableEq, Repr

/-- The `ExtractionResult` named tuple: id, title, and the aggregated
dataframe, one `(Datum, Aantal stappen)` row per date. -/
structure ExtractionResult where
  id : String
  title : Translatable
  data_frame : List (String × Int)
deriving DecidableEq, Repr

/-- `extract_daily_steps_from_zip`: wrap the aggregate in an
`ExtractionResult` with the fixed id and bilingual title. -/
def extract_daily_steps_from_zip (z : ZipSource) : Except PyError ExtractionResult :=
  match aggregate_steps_from_zip z with
  | .error e => .error e
  | .ok rows => .ok ⟨"ihealth_step_counts", ⟨"Number of steps", "Aantal stappen"⟩, rows⟩

/-- The exception classes `script.py` itself declares (its own error
taxonomy): `FileInZipNotFoundError`, `EmptyHealthDataError`,
`InvalidXMLError` — and no others. -/
def pipelineDeclaredErrors : List PyError :=
  [.fileInZipNotFound, .emptyHealthData, .invalidXML]

/-- The record `startElement` collects from one event, if any: the event is a
`Record` of type `HKQuantityTypeIdentifierStepCount`, its `value` and
`startDate` attributes parse, and the start date is not before
`filter_start_date`.  Mirrors the match structure of `startElement`. -/
def qualRec (ev : XEvent) : Option StepRec :=
  if ev.tag = "Record" then
    match lookupAttr ev.attributes "type" with
    | none => none
    | some ty =>
      if ty = "HKQuantityTypeIdentifierStepCount" then
        match lookupAttr ev.attributes "value" with
        | none => none
        | some vs =>
          match pyInt vs with
          | none => none
          | some v =>
            match lookupAttr ev.attributes "startDate" with
            | none => none
            | some ds =>
              match parse_naive_datetime ds with
              | none => none
              | some dt =>
                if dt.ltb filter_start_date then none else some ⟨v, dt⟩
      else none
  else none

theorem startElement_ok_append (buf : List StepRec) (ev : XEvent)
    (buf2 : List StepRec) (h : startElement buf ev.tag ev.attributes = .ok buf2) :
    buf2 = buf ++ (qualRec ev).toList := by
  unfold startElement at h
  unfold qualRec
  split at h
  case isTrue htag =>
    rw [if_pos htag]
    cases hty : lookupAttr ev.attributes "type" with
    | none => rw [hty] at h; cases h
    | some ty =>
      rw [hty] at h
      dsimp only at h ⊢
      split at h
      case isTrue hsty =>
        rw [if_pos hsty]
        cases hv : lookupAttr ev.attributes "value" with
        | none => rw [hv] at h; cases h
        | some vs =>
          rw [hv] at h
          dsimp only at h ⊢
          cases hpi : pyInt vs with
          | none => rw [hpi] at h; cases h
          | some v =>
            rw [hpi] at h
            dsimp only at h ⊢
            cases hsd : lookupAttr ev.attributes "startDate" with
            | none => rw [hsd] at h; cases h
            | some ds =>
              rw [hsd] at h
              dsimp only at h ⊢
              cases hpd : parse_naive_datetime ds with
              | none => rw [hpd] at h; cases h
              | some dt =>
                rw [hpd] at h
                dsimp only at h ⊢
                cases h
                unfold stepCountCallback
                split
                case isTrue hlt => simp
                case isFalse hlt => simp
      case isFalse hsty =>
        rw [if_neg hsty]
        cases h
        simp
  case isFalse htag =>
    rw [if_neg htag]
    cases h
    simp

theorem runEvents_ok_append (evs : List XEvent) :
    ∀ buf recs, runEvents buf evs = .ok recs →
      recs = buf ++ evs.filterMap qualRec := by
  induction evs with
  | nil =>
    intro buf recs h
    unfold runEvents at h
    cases h
    simp
  | cons ev rest ih =>
    intro buf recs h
    unfold runEvents at h
    cases hse : startElement buf ev.tag ev.attributes with
    | error e => rw [hse] at h; cases h
    | ok buf2 =>
      rw [hse] at h
      have h2 := ih buf2 recs h
      have h3 := startElement_ok_append buf ev buf2 hse
      rw [h2, h3, List.filterMap_cons]
      cases qualRec ev <;> simp

theorem parse_health_data_ok (doc : XMLDoc) (recs : List StepRec)
    (h : parse_health_data doc = .ok recs) :
    recs = doc.events.filterMap qualRec ∧ doc.malformed = false ∧ recs ≠ [] := by
  unfold parse_health_data at h
  cases hre : runEvents [] doc.events with
  | error e => rw [hre] at h; cases h
  | ok recs0 =>
    rw [hre] at h
    dsimp only at h
    split at h
    case isTrue => cases h
    case isFalse hmal =>
      split at h
      case isTrue => cases h
      case isFalse hemp =>
        cases h
        refine ⟨?_, by simpa using hmal, by simpa [List.isEmpty_iff] using hemp⟩
        simpa using runEvents_ok_append doc.events [] recs hre

theorem char_eq_of_not_ltb (a b : Char) (h1 : ¬ charLtb a b = true)
    (h2 : ¬ charLtb b a = true) : a = b := by
  simp only [charLtb, decide_eq_true_eq] at h1 h2
  apply Char.ext
  apply UInt32.ext
  show a.toNat = b.toNat
  omega

theorem char_toNat_ne_of_ne (a b : Char) (h : a ≠ b) : a.toNat ≠ b.toNat :=
  fun he => h (Char.ext (UInt32.ext he))

theorem charListLtb_cons_iff (a b : Char) (as bs : List Char) :
    charListLtb (a :: as) (b :: bs) = true ↔
      a.toNat < b.toNat ∨ (a = b ∧ charListLtb as bs = true) := by
  simp only [charListLtb]
  by_cases h1 : charLtb a b = true
  · have := (by simpa [charLtb] using h1 : a.toNat < b.toNat)
    simp [h1, this]
  · rw [if_neg h1]
    by_cases h2 : charLtb b a = true
    · have hba := (by simpa [charLtb] using h2 : b.toNat < a.toNat)
      have hne : a ≠ b := fun he => by simp [he] at hba
      rw [if_pos h2]
      simp only [Bool.false_eq_true, false_iff]
      rintro (h3 | ⟨h3, -⟩)
      · omega
      · exact hne h3
    · rw [if_neg h2]
      have he := char_eq_of_not_ltb a b h1 h2
      subst he
      simp [charLtb] at h1
      constructor
      · intro h3; exact Or.inr ⟨rfl, h3⟩
      · rintro (h3 | ⟨-, h3⟩)
        · omega
        · exact h3

theorem charListLtb_irrefl (l : List Char) : charListLtb l l = false := by
  induction l with
  | nil => rfl
  | cons a as ih => simp [charListLtb, charLtb, ih]

theorem charListLtb_trans (a : List Char) :
    ∀ b c, charListLtb a b = true → charListLtb b c = true →
      charListLtb a c = true := by
  induction a with
  | nil =>
    intro b c hab hbc
    cases b with
    | nil => exact hbc
    | cons bh bt =>
      cases c with
      | nil => simp [charListLtb] at hbc
      | cons ch ct => rfl
  | cons ah as ih =>
    intro b c hab hbc
    cases b with
    | nil => simp [charListLtb] at hab
    | cons bh bt =>
      cases c with
      | nil => simp [charListLtb] at hbc
      | cons ch ct =>
        rw [charListLtb_cons_iff] at hab hbc ⊢
        rcases hab with hab | ⟨hab, hab2⟩
        · rcases hbc with hbc | ⟨hbc, -⟩
          · exact Or.inl (lt_trans hab hbc)
          · exact Or.inl (hbc ▸ hab)
        · rcases hbc with hbc | ⟨hbc, hbc2⟩
          · exact Or.inl (hab ▸ hbc)
          · exact Or.inr ⟨hab.trans hbc, ih bt ct hab2 hbc2⟩

theorem charListLtb_connex (a : List Char) :
    ∀ b, a ≠ b → charListLtb a b = true ∨ charListLtb b a = true := by
  induction a with
  | nil =>
    intro b h
    cases b with
    | nil => exact absurd rfl h
    | cons bh bt => exact Or.inl rfl
  | cons ah as ih =>
    intro b h
    cases b with
    | nil => exact Or.inr rfl
    | cons bh bt =>
      by_cases he : ah = bh
      · subst he
        have hne : as ≠ bt := fun h2 => h (by rw [h2])
        rcases ih bt hne with h3 | h3
        · exact Or.inl ((charListLtb_cons_iff _ _ _ _).mpr (Or.inr ⟨rfl, h3⟩))
        · exact Or.inr ((charListLtb_cons_iff _ _ _ _).mpr (Or.inr ⟨rfl, h3⟩))
      · have hne := char_toNat_ne_of_ne ah bh he
        rcases Nat.lt_or_ge ah.toNat bh.toNat with h3 | h3
        · exact Or.inl ((charListLtb_cons_iff _ _ _ _).mpr (Or.inl h3))
        · refine Or.inr ((charListLtb_cons_iff _ _ _ _).mpr (Or.inl ?_))
          omega

theorem strLtb_trans (a b c : String) (hab : strLtb a b = true)
    (hbc : strLtb b c = true) : strLtb a c = true :=
  charListLtb_trans a.data b.data c.data hab hbc

theorem strLtb_irrefl (s : String) : strLtb s s = false :=
  charListLtb_irrefl s.data

theorem ne_of_strLtb (a b : String) (h : strLtb a b = true) : a ≠ b := by
  intro he
  rw [he, strLtb_irrefl] at h
  cases h

theorem strLtb_connex (a b : String) (h : a ≠ b) :
    strLtb a b = true ∨ strLtb b a = true := by
  refine charListLtb_connex a.data b.data ?_
  intro he
  apply h
  cases a with
  | mk da =>
    cases b with
    | mk db => exact congrArg String.mk (by simpa using he)

theorem mem_insertKey (a k : String) (ks : List String) :
    a ∈ insertKey k ks ↔ a = k ∨ a ∈ ks := by
  induction ks with
  | nil => simp [insertKey]
  | cons k2 ks ih =>
    unfold insertKey
    by_cases h1 : k = k2
    · subst h1
      simp only [if_pos rfl]
      constructor
      · intro h; exact Or.inr h
      · rintro (h | h)
        · simp [h]
        · exact h
    · rw [if_neg h1]
      by_cases h2 : strLtb k k2 = true
      · rw [if_pos h2]
        simp [List.mem_cons]
      · rw [if_neg h2]
        simp only [List.mem_cons, ih]
        tauto

theorem pairwise_insertKey (k : String) (ks : List String)
    (h : ks.Pairwise (fun a b => strLtb a b = true)) :
    (insertKey k ks).Pairwise (fun a b => strLtb a b = true) := by
  induction ks with
  | nil => simp [insertKey]
  | cons k2 ks ih =>
    rw [List.pairwise_cons] at h
    obtain ⟨hhead, htail⟩ := h
    unfold insertKey
    by_cases h1 : k = k2
    · rw [if_pos h1]
      exact List.pairwise_cons.mpr ⟨hhead, htail⟩
    · rw [if_neg h1]
      by_cases h2 : strLtb k k2 = true
      · rw [if_pos h2]
        refine List.pairwise_cons.mpr ⟨?_, List.pairwise_cons.mpr ⟨hhead, htail⟩⟩
        intro x hx
        rcases List.mem_cons.mp hx with hx | hx
        · exact hx ▸ h2
        · exact strLtb_trans k k2 x h2 (hhead x hx)
      · rw [if_neg h2]
        refine List.pairwise_cons.mpr ⟨?_, ih htail⟩
        intro x hx
        rcases (mem_insertKey x k ks).mp hx with hx | hx
        · subst hx
          rcases strLtb_connex k2 x (Ne.symm h1) with h3 | h3
          · exact h3
          · exact absurd h3 h2
        · exact hhead x hx

theorem pairwise_foldl_insert (recs : List StepRec) :
    ∀ ks : List String, ks.Pairwise (fun a b => strLtb a b = true) →
      (recs.foldl (fun ks r => insertKey (dateKey r) ks) ks).Pairwise
        (fun a b => strLtb a b = true) := by
  induction recs with
  | nil => intro ks h; simpa using h
  | cons r rs ih =>
    intro ks h
    simpa [List.foldl_cons] using ih (insertKey (dateKey r) ks) (pairwise_insertKey _ _ h)

theorem mem_foldl_insert (recs : List StepRec) :
    ∀ (ks : List String) (a : String),
      a ∈ recs.foldl (fun ks r => insertKey (dateKey r) ks) ks ↔
        a ∈ ks ∨ ∃ r ∈ recs, dateKey r = a := by
  induction recs with
  | nil => intro ks a; simp
  | cons r rs ih =>
    intro ks a
    rw [List.foldl_cons, ih, mem_insertKey]
    constructor
    · rintro ((h | h) | h)
      · exact Or.inr ⟨r, by simp, h.symm⟩
      · exact Or.inl h
      · obtain ⟨r2, hr2, hk⟩ := h
        exact Or.inr ⟨r2, by simp [hr2], hk⟩
    · rintro (h | ⟨r2, hr2, hk⟩)
      · exact Or.inl (Or.inr h)
      · rcases List.mem_cons.mp hr2 with hr2 | hr2
        · exact Or.inl (Or.inl (hr2 ▸ hk.symm))
        · exact Or.inr ⟨r2, hr2, hk⟩

theorem groupKeys_pairwise (recs : List StepRec) :
    (groupKeys recs).Pairwise (fun a b => strLtb a b = true) :=
  pairwise_foldl_insert recs [] (List.Pairwise.nil)

theorem mem_groupKeys (recs : List StepRec) (a : String) :
    a ∈ groupKeys recs ↔ ∃ r ∈ recs, dateKey r = a := by
  rw [groupKeys, mem_foldl_insert]
  simp

theorem groupKeys_nodup (recs : List StepRec) : (groupKeys recs).Nodup :=
  (groupKeys_pairwise recs).imp (fun h => ne_of_strLtb _ _ h)

theorem sum_map_filter_split (p : StepRec → Bool) (recs : List StepRec) :
    ((recs.filter p).map StepRec.steps).sum
      + ((recs.filter fun r => !(p r)).map StepRec.steps).sum
      = (recs.map StepRec.steps).sum := by
  induction recs with
  | nil => simp
  | cons r rs ih =>
    by_cases h : p r = true
    · simp only [List.filter_cons, h, Bool.not_true, List.map_cons, List.sum_cons,
        if_true, Bool.false_eq_true, if_false]
      omega
    · rw [Bool.not_eq_true] at h
      simp only [List.filter_cons, h, Bool.not_false, List.map_cons, List.sum_cons,
        if_true, Bool.false_eq_true, if_false]
      omega

theorem filter_filter_not_ne (k k2 : String) (recs : List StepRec) (hne : k2 ≠ k) :
    ((recs.filter fun r => !(decide (dateKey r = k))).filter fun r => dateKey r = k2)
      = recs.filter fun r => dateKey r = k2 := by
  induction recs with
  | nil => simp
  | cons r rs ih =>
    by_cases h : dateKey r = k
    · have h2 : ¬ (dateKey r = k2) := by rw [h]; exact fun he => hne he.symm
      simp [List.filter_cons, h, h2, ih, hne, Ne.symm hne]
    · by_cases h2 : dateKey r = k2 <;>
        simp [List.filter_cons, h, h2, ih, hne, Ne.symm hne]

theorem sum_over_keys (keys : List String) :
    ∀ recs : List StepRec, keys.Nodup →
      (∀ r ∈ recs, dateKey r ∈ keys) →
      (keys.map fun k => ((recs.filter fun r => dateKey r = k).map StepRec.steps).sum).sum
        = (recs.map StepRec.steps).sum := by
  induction keys with
  | nil =>
    intro recs _ hall
    cases recs with
    | nil => simp
    | cons r rs => exact absurd (hall r (by simp)) (by simp)
  | cons k ks ih =>
    intro recs hnd hall
    rw [List.map_cons, List.sum_cons]
    have hsplit := sum_map_filter_split (fun r => decide (dateKey r = k)) recs
    obtain ⟨hk, hksnd⟩ := List.nodup_cons.mp hnd
    have hmapeq : (ks.map fun k2 =>
          ((recs.filter fun r => dateKey r = k2).map StepRec.steps).sum)
        = ks.map fun k2 =>
            (((recs.filter fun r => !(decide (dateKey r = k))).filter
                fun r => dateKey r = k2).map StepRec.steps).sum := by
      refine List.map_congr_left ?_
      intro k2 hk2
      rw [filter_filter_not_ne k k2 recs (fun he => hk (he ▸ hk2))]
    have hall2 : ∀ r ∈ recs.filter fun r => !(decide (dateKey r = k)),
        dateKey r ∈ ks := by
      intro r hr
      obtain ⟨hrr, hneq⟩ := List.mem_filter.mp hr
      rcases List.mem_cons.mp (hall r hrr) with he | he
      · simp [he] at hneq
      · exact he
    rw [hmapeq, ih _ hksnd hall2]
    omega

theorem dailySteps_fst (recs : List StepRec) :
    (dailySteps recs).map Prod.fst = groupKeys recs := by
  rw [dailySteps, List.map_map]
  exact List.map_id (groupKeys recs)

theorem wrap64_eq_self (v : Int) (h : fitsInt64 v = true) : wrap64 v = v := by
  simp only [fitsInt64, Bool.and_eq_true, decide_eq_true_eq] at h
  unfold wrap64
  split <;> omega

theorem dailySteps_snd_sum (recs : List StepRec)
    (hfit : ∀ k ∈ groupKeys recs,
      fitsInt64 (((recs.filter fun r => dateKey r = k).map StepRec.steps).sum)
        = true) :
    ((dailySteps recs).map Prod.snd).sum = (recs.map StepRec.steps).sum := by
  rw [dailySteps, List.map_map]
  have hcongr : List.map
      (Prod.snd ∘ fun k =>
        (k, if recs.all fun r => fitsInt64 r.steps then
              wrap64 (((recs.filter fun r => dateKey r = k).map StepRec.steps).sum)
            else ((recs.filter fun r => dateKey r = k).map StepRec.steps).sum))
      (groupKeys recs)
      = List.map
          (fun k => ((recs.filter fun r => dateKey r = k).map StepRec.steps).sum)
          (groupKeys recs) := by
    refine List.map_congr_left ?_
    intro k hk
    simp only [Function.comp_apply]
    split
    · exact wrap64_eq_self _ (hfit k hk)
    · rfl
  rw [hcongr]
  exact sum_over_keys (groupKeys recs) recs (groupKeys_nodup recs)
    (fun r hr => (mem_groupKeys recs (dateKey r)).mpr ⟨r, hr, rfl⟩)

theorem dailySteps_mem (recs : List StepRec) (p : String × Int)
    (hp : p ∈ dailySteps recs) :
    (∃ r ∈ recs, dateKey r = p.1) ∧
      p.2 = (if recs.all fun r => fitsInt64 r.steps then
              wrap64 (((recs.filter fun r => dateKey r = p.1).map StepRec.steps).sum)
            else ((recs.filter fun r => dateKey r = p.1).map StepRec.steps).sum) := by
  unfold dailySteps at hp
  obtain ⟨k, hk, hpk⟩ := List.mem_map.mp hp
  subst hpk
  exact ⟨(mem_groupKeys recs k).mp hk, rfl⟩

theorem dailySteps_nonneg (recs : List StepRec)
    (hpos : ∀ r ∈ recs, 0 ≤ r.steps)
    (hfit : ∀ k ∈ groupKeys recs,
      fitsInt64 (((recs.filter fun r => dateKey r = k).map StepRec.steps).sum)
        = true)
    (p : String × Int) (hp : p ∈ dailySteps recs) : 0 ≤ p.2 := by
  obtain ⟨hex, hsum⟩ := dailySteps_mem recs p hp
  have hkey : p.1 ∈ groupKeys recs := (mem_groupKeys recs p.1).mpr hex
  have hnn : 0 ≤ ((recs.filter fun r => dateKey r = p.1).map StepRec.steps).sum := by
    refine List.sum_nonneg ?_
    intro x hx
    obtain ⟨r, hr, hrx⟩ := List.mem_map.mp hx
    exact hrx ▸ hpos r (List.mem_filter.mp hr).1
  rw [hsum]
  split
  · rw [wrap64_eq_self _ (hfit p.1 hkey)]
    exact hnn
  · exact hnn

theorem extract_ok_shape (z : ZipSource) (res : ExtractionResult)
    (h : extract_daily_steps_from_zip z = .ok res) :
    ∃ members doc recs, z = .zip members ∧
      zipMemberLast members export_file_name = some doc ∧
      parse_health_data doc = .ok recs ∧
      res.data_frame = dailySteps recs := by
  cases z with
  | notAZip =>
    exact absurd h (by simp [extract_daily_steps_from_zip, aggregate_steps_from_zip,
      open_export_zip_run])
  | zip members =>
    unfold extract_daily_steps_from_zip aggregate_steps_from_zip open_export_zip_run at h
    dsimp only at h
    cases hm : zipMemberLast members export_file_name with
    | none => rw [hm] at h; cases h
    | some doc =>
      rw [hm] at h
      dsimp only at h
      unfold aggregate_daily_steps at h
      cases hp : parse_health_data doc with
      | error e => rw [hp] at h; cases h
      | ok recs =>
        rw [hp] at h
        dsimp only at h
        cases h
        exact ⟨members, doc, recs, rfl, hm, hp, rfl⟩

theorem zipMemberLast_none_of_not_mem (members : List (String × XMLDoc))
    (name : String) (h : name ∉ namelist members) :
    zipMemberLast members name = none := by
  induction members with
  | nil => rfl
  | cons m rest ih =>
    cases m with
    | mk n d =>
      have hcons : namelist ((n, d) :: rest) = n :: namelist rest := rfl
      have h1 : ¬ (n = name) := by
        intro he
        apply h
        rw [hcons, he]
        exact List.mem_cons_self _ _
      have h2 : name ∉ namelist rest := by
        intro hm
        apply h
        rw [hcons]
        exact List.mem_cons_of_mem _ hm
      unfold zipMemberLast
      rw [ih h2]
      simp [h1]

/-- A well-formed export document with step records on two days, delivered
out of chronological order, one of them carrying a +0200 offset. -/
def sampleDoc : XMLDoc :=
  ⟨[⟨"Record", [("type", "HKQuantityTypeIdentifierStepCount"), ("value", "300"),
      ("startDate", "2024-01-02 08:00:00 +0000")]⟩,
    ⟨"Record", [("type", "HKQuantityTypeIdentifierStepCount"), ("value", "100"),
      ("startDate", "2024-01-01 09:00:00 +0000")]⟩,
    ⟨"Record", [("type", "HKQuantityTypeIdentifierStepCount"), ("value", "250"),
      ("startDate", "2024-01-01 10:00:00 +0200")]⟩], false⟩

/-- The extraction result for `sampleDoc`. -/
def sampleResult : ExtractionResult :=
  ⟨"ihealth_step_counts", ⟨"Number of steps", "Aantal stappen"⟩,
    [("2024-01-01", 350), ("2024-01-02", 300)]⟩

/-- A well-formed export document mixing step-count records with a
heart-rate record. -/
def mixedDoc : XMLDoc :=
  ⟨[⟨"Record", [("type", "HKQuantityTypeIdentifierStepCount"), ("value", "100"),
      ("startDate", "2024-01-01 09:00:00 +0000")]⟩,
    ⟨"Record", [("type", "HKQuantityTypeIdentifierHeartRate"), ("value", "77"),
      ("startDate", "2024-01-01 09:30:00 +0000")]⟩,
    ⟨"Record", [("type", "HKQuantityTypeIdentifierStepCount"), ("value", "250"),
      ("startDate", "2024-01-02 10:00:00 +0000")]⟩], false⟩

/-- The extraction result for `mixedDoc`. -/
def mixedResult : ExtractionResult :=
  ⟨"ihealth_step_counts", ⟨"Number of steps", "Aantal stappen"⟩,
    [("2024-01-01", 100), ("2024-01-02", 250)]⟩

/-- A well-formed export document whose only step record is dated 2016,
before the cutoff. -/
def doc2016 : XMLDoc :=
  ⟨[⟨"Record", [("type", "HKQuantityTypeIdentifierStepCount"), ("value", "100"),
      ("startDate", "2016-05-01 12:00:00 +0000")]⟩], false⟩

/-- A document whose scan delivers one valid step record and then fails
with a well-formedness error (truncated input). -/
def truncatedDoc : XMLDoc :=
  ⟨[⟨"Record", [("type", "HKQuantityTypeIdentifierStepCount"), ("value", "100"),
      ("startDate", "2024-01-01 09:00:00 +0000")]⟩], true⟩

/-- A well-formed document with a step record whose `value` attribute is not
a decimal integer. -/
def badValueDoc : XMLDoc :=
  ⟨[⟨"Record", [("type", "HKQuantityTypeIdentifierStepCount"), ("value", "12.5"),
      ("startDate", "2020-01-01 10:00:00 +0000")]⟩], false⟩

/-- A well-formed document with a step record whose `startDate` does not
match the expected format. -/
def badDateDoc : XMLDoc :=
  ⟨[⟨"Record", [("type", "HKQuantityTypeIdentifierStepCount"), ("value", "100"),
      ("startDate", "2020-01-01")]⟩], false⟩

/-- A well-formed document with a `Record` element missing its `type`
attribute. -/
def noTypeDoc : XMLDoc :=
  ⟨[⟨"Record", [("value", "100"),
      ("startDate", "2020-01-01 10:00:00 +0000")]⟩], false⟩

/-- A well-formed document with a step record whose `value` attribute is the
negative integer -5. -/
def negativeDoc : XMLDoc :=
  ⟨[⟨"Record", [("type", "HKQuantityTypeIdentifierStepCount"), ("value", "-5"),
      ("startDate", "2020-01-01 10:00:00 +0000")]⟩], false⟩

/-- C1: for every archive from which extraction succeeds, the rows of the
returned `ExtractionResult` are sorted strictly ascending by their date
string (code-point lexicographic, which is chronological for ISO dates) and
contain no duplicate dates. -/
theorem C1_rows_sorted_nodup (z : ZipSource) (res : ExtractionResult)
    (h : extract_daily_steps_from_zip z = .ok res) :
    (res.data_frame.map Prod.fst).Pairwise (fun a b => strLtb a b = true) ∧
      (res.data_frame.map Prod.fst).Nodup := by
  obtain ⟨members, doc, recs, -, -, -, hdf⟩ := extract_ok_shape z res h
  rw [hdf, dailySteps_fst]
  exact ⟨groupKeys_pairwise recs, groupKeys_nodup recs⟩

/-- Witness for C1 on `sampleDoc`, whose records arrive out of order. -/
theorem C1_rows_sorted_nodup_witness :
    extract_daily_steps_from_zip (ZipSource.zip [(export_file_name, sampleDoc)])
        = .ok sampleResult ∧
      ((sampleResult.data_frame.map Prod.fst).Pairwise
          (fun a b => strLtb a b = true) ∧
        (sampleResult.data_frame.map Prod.fst).Nodup) :=
  ⟨rfl, C1_rows_sorted_nodup (ZipSource.zip [(export_file_name, sampleDoc)])
    sampleResult rfl⟩

/-- A well-formed export document with two step records of 2^62 on the same
day: each value fits int64, so the pandas int64 group sum wraps to -2^63. -/
def overflowDoc : XMLDoc :=
  ⟨[⟨"Record", [("type", "HKQuantityTypeIdentifierStepCount"),
      ("value", "4611686018427387904"),
      ("startDate", "2024-01-01 09:00:00 +0000")]⟩,
    ⟨"Record", [("type", "HKQuantityTypeIdentifierStepCount"),
      ("value", "4611686018427387904"),
      ("startDate", "2024-01-01 10:00:00 +0000")]⟩], false⟩

/-- C2 counterexample: on `overflowDoc` extraction succeeds, yet the int64
group sum wraps, so the returned total -2^63 differs from the sum 2^63 of
the qualifying records' value attributes. -/
theorem C2_counterexample :
    zipMemberLast [(export_file_name, overflowDoc)] export_file_name
        = some overflowDoc ∧
      extract_daily_steps_from_zip (ZipSource.zip [(export_file_name, overflowDoc)])
        = .ok ⟨"ihealth_step_counts", ⟨"Number of steps", "Aantal stappen"⟩,
            [("2024-01-01", -9223372036854775808)]⟩ ∧
      ((overflowDoc.events.filterMap qualRec).map StepRec.steps).sum
        = 9223372036854775808 ∧
      ([((("2024-01-01" : String), (-9223372036854775808 : Int)))].map Prod.snd).sum
        ≠ 9223372036854775808 :=
  ⟨rfl, rfl, rfl, by decide⟩

/-- C2 amended: for every archive from which extraction succeeds and in
which every per-day sum of qualifying step values fits in int64 (so the
pandas int64 group sum does not wrap), the sum of steps over all returned
rows equals the sum of the parsed `value` attributes over exactly the
`Record` elements of type `HKQuantityTypeIdentifierStepCount` whose
stripped `startDate` is not before 2017-01-01 (the records `qualRec`
selects); and every returned row's date stems from such a record, so records
of any other type contribute nothing to totals and produce no rows. -/
theorem C2_sum_preservation_amended (members : List (String × XMLDoc))
    (doc : XMLDoc) (res : ExtractionResult)
    (hm : zipMemberLast members export_file_name = some doc)
    (hok : extract_daily_steps_from_zip (.zip members) = .ok res)
    (hfit : ∀ k ∈ groupKeys (doc.events.filterMap qualRec),
      fitsInt64 ((((doc.events.filterMap qualRec).filter
          fun r => dateKey r = k).map StepRec.steps).sum) = true) :
    (res.data_frame.map Prod.snd).sum
        = ((doc.events.filterMap qualRec).map StepRec.steps).sum ∧
      ∀ p ∈ res.data_frame, p.1 ∈ (doc.events.filterMap qualRec).map dateKey := by
  obtain ⟨members2, doc2, recs, hz, hm2, hparse, hdf⟩ := extract_ok_shape _ _ hok
  obtain rfl : members = members2 := by injection hz
  have hdd : doc2 = doc := by rw [hm] at hm2; exact (Option.some.inj hm2).symm
  have hrecs := (parse_health_data_ok doc2 recs hparse).1
  rw [hdd] at hrecs
  rw [← hrecs] at hfit
  constructor
  · rw [hdf, dailySteps_snd_sum recs hfit, hrecs]
  · intro p hp
    rw [hdf] at hp
    obtain ⟨⟨r, hr, hkey⟩, -⟩ := dailySteps_mem recs p hp
    exact List.mem_map.mpr ⟨r, hrecs ▸ hr, hkey⟩

/-- Witness for the amended C2 on `mixedDoc`, which contains a heart-rate
record and whose per-day sums fit int64. -/
theorem C2_sum_preservation_amended_witness :
    zipMemberLast [(export_file_name, mixedDoc)] export_file_name = some mixedDoc ∧
      extract_daily_steps_from_zip (ZipSource.zip [(export_file_name, mixedDoc)])
        = .ok mixedResult ∧
      (∀ k ∈ groupKeys (mixedDoc.events.filterMap qualRec),
        fitsInt64 ((((mixedDoc.events.filterMap qualRec).filter
            fun r => dateKey r = k).map StepRec.steps).sum) = true) ∧
      ((mixedResult.data_frame.map Prod.snd).sum
          = ((mixedDoc.events.filterMap qualRec).map StepRec.steps).sum ∧
        ∀ p ∈ mixedResult.data_frame,
          p.1 ∈ (mixedDoc.events.filterMap qualRec).map dateKey) :=
  ⟨rfl, rfl, by decide, C2_sum_preservation_amended [(export_file_name, mixedDoc)]
    mixedDoc mixedResult rfl rfl (by decide)⟩

/-- C3: a record is excluded by `StepCountCallback` exactly when its stripped
timestamp is strictly before `filter_start_date` (excluded records are never
appended to the buffer); `parse_naive_datetime` keeps the wall-clock time as
written and ignores the offset (a +0900 stamp is not shifted to 2016); the
boundary stamps behave as claimed, also end to end through `startElement`. -/
theorem C3_cutoff_boundary (v : Int) (buf : List StepRec) (dt : NaiveDT) :
    (stepCountCallback buf v dt = buf ↔ dt.ltb filter_start_date = true) ∧
    parse_naive_datetime "2017-01-01 00:00:00 +0000" = some filter_start_date ∧
    parse_naive_datetime "2017-01-01 00:00:00 +0900" = some filter_start_date ∧
    parse_naive_datetime "2016-12-31 23:59:59 +0000"
      = some ⟨2016, 12, 31, 23, 59, 59⟩ ∧
    NaiveDT.ltb ⟨2016, 12, 31, 23, 59, 59⟩ filter_start_date = true ∧
    NaiveDT.ltb filter_start_date filter_start_date = false ∧
    runEvents [] [⟨"Record", [("type", "HKQuantityTypeIdentifierStepCount"),
        ("value", "7"), ("startDate", "2017-01-01 00:00:00 +0000")]⟩]
      = .ok [⟨7, filter_start_date⟩] ∧
    runEvents [] [⟨"Record", [("type", "HKQuantityTypeIdentifierStepCount"),
        ("value", "7"), ("startDate", "2016-12-31 23:59:59 +0000")]⟩]
      = .ok [] := by
  refine ⟨?_, rfl, rfl, rfl, rfl, rfl, rfl, rfl⟩
  unfold stepCountCallback
  by_cases hlt : dt.ltb filter_start_date = true
  · simp [hlt]
  · rw [if_neg hlt]
    apply iff_of_false
    · intro he
      have := congrArg List.length he
      simp at this
    · exact hlt

/-- C4: a well-formed scan that collects zero qualifying records makes
`parse_health_data` raise `EmptyHealthDataError`, which propagates through
aggregation and the zip pipeline as that distinct failure, never as an empty
result. -/
theorem C4_empty_result_error (doc : XMLDoc)
    (hmal : doc.malformed = false)
    (hempty : runEvents [] doc.events = .ok []) :
    parse_health_data doc = .error .emptyHealthData ∧
      aggregate_daily_steps doc = .error .emptyHealthData ∧
      extract_daily_steps_from_zip (.zip [(export_file_name, doc)])
        = .error .emptyHealthData := by
  have hp : parse_health_data doc = .error .emptyHealthData := by
    unfold parse_health_data
    rw [hempty, hmal]
    rfl
  have ha : aggregate_daily_steps doc = .error .emptyHealthData := by
    unfold aggregate_daily_steps
    rw [hp]
  refine ⟨hp, ha, ?_⟩
  unfold extract_daily_steps_from_zip aggregate_steps_from_zip open_export_zip_run
  dsimp only
  rw [show zipMemberLast [(export_file_name, doc)] export_file_name = some doc
    from rfl]
  dsimp only
  rw [ha]

/-- Witness for C4 on `doc2016`, whose only record predates the cutoff. -/
theorem C4_empty_result_error_witness :
    doc2016.malformed = false ∧
      runEvents [] doc2016.events = .ok [] ∧
      (parse_health_data doc2016 = .error .emptyHealthData ∧
        aggregate_daily_steps doc2016 = .error .emptyHealthData ∧
        extract_daily_steps_from_zip (.zip [(export_file_name, doc2016)])
          = .error .emptyHealthData) :=
  ⟨rfl, rfl, C4_empty_result_error doc2016 rfl rfl⟩

/-- C5: whenever the scan fails (`malformed`), and the delivered events were
handled without a handler exception, `parse_health_data` raises
`InvalidXMLError` and no aggregate is produced, even when valid step records
were already collected before the failure point. -/
theorem C5_invalid_xml_error (doc : XMLDoc) (recs : List StepRec)
    (hmal : doc.malformed = true)
    (hrun : runEvents [] doc.events = .ok recs) :
    parse_health_data doc = .error .invalidXML ∧
      aggregate_daily_steps doc = .error .invalidXML ∧
      extract_daily_steps_from_zip (.zip [(export_file_name, doc)])
        = .error .invalidXML := by
  have hp : parse_health_data doc = .error .invalidXML := by
    unfold parse_health_data
    rw [hrun, hmal]
    rfl
  have ha : aggregate_daily_steps doc = .error .invalidXML := by
    unfold aggregate_daily_steps
    rw [hp]
  refine ⟨hp, ha, ?_⟩
  unfold extract_daily_steps_from_zip aggregate_steps_from_zip open_export_zip_run
  dsimp only
  rw [show zipMemberLast [(export_file_name, doc)] export_file_name = some doc
    from rfl]
  dsimp only
  rw [ha]

/-- Witness for C5 on `truncatedDoc`: one valid step record was already seen
before the scan failure, and the whole attempt is still discarded. -/
theorem C5_invalid_xml_error_witness :
    truncatedDoc.malformed = true ∧
      runEvents [] truncatedDoc.events
        = .ok [⟨100, ⟨2024, 1, 1, 9, 0, 0⟩⟩] ∧
      (parse_health_data truncatedDoc = .error .invalidXML ∧
        aggregate_daily_steps truncatedDoc = .error .invalidXML ∧
        extract_daily_steps_from_zip (.zip [(export_file_name, truncatedDoc)])
          = .error .invalidXML) :=
  ⟨rfl, rfl, C5_invalid_xml_error truncatedDoc [⟨100, ⟨2024, 1, 1, 9, 0, 0⟩⟩] rfl rfl⟩

/-- C6: for every archive whose member list does not contain the literal
path `apple_health_export/export.xml`, the pipeline raises
`FileInZipNotFoundError` and terminates without a result. -/
theorem C6_missing_member (members : List (String × XMLDoc))
    (h : export_file_name ∉ namelist members) :
    extract_daily_steps_from_zip (.zip members) = .error .fileInZipNotFound ∧
      aggregate_steps_from_zip (.zip members) = .error .fileInZipNotFound := by
  have hm := zipMemberLast_none_of_not_mem members export_file_name h
  have ha : aggregate_steps_from_zip (.zip members) = .error .fileInZipNotFound := by
    unfold aggregate_steps_from_zip open_export_zip_run
    dsimp only
    rw [hm]
  refine ⟨?_, ha⟩
  unfold extract_daily_steps_from_zip
  rw [ha]

/-- Witness for C6 on an archive holding only an unrelated member. -/
theorem C6_missing_member_witness :
    export_file_name ∉ namelist [("other.txt", sampleDoc)] ∧
      (extract_daily_steps_from_zip (.zip [("other.txt", sampleDoc)])
          = .error .fileInZipNotFound ∧
        aggregate_steps_from_zip (.zip [("other.txt", sampleDoc)])
          = .error .fileInZipNotFound) :=
  ⟨by decide, C6_missing_member [("other.txt", sampleDoc)] (by decide)⟩

/-- C7 counterexample: on a path that is not a zip archive the pipeline
propagates the zip library's `BadZipFile`, which is not among the error
classes `script.py` itself declares — and those number three, not four. -/
theorem C7_counterexample :
    extract_daily_steps_from_zip ZipSource.notAZip = .error PyError.badZipFile ∧
      PyError.badZipFile ∉ pipelineDeclaredErrors ∧
      pipelineDeclaredErrors.length = 3 :=
  ⟨rfl, by decide, rfl⟩

/-- C7 amended: a path that cannot be opened as a zip makes the pipeline
propagate the zip library's `BadZipFile` uncaught; that failure is distinct
and inspectable, but it is a library exception, not one of the pipeline's
own declared error kinds. -/
theorem C7_badzip_library_error :
    extract_daily_steps_from_zip ZipSource.notAZip = .error PyError.badZipFile ∧
      aggregate_steps_from_zip ZipSource.notAZip = .error PyError.badZipFile ∧
      PyError.badZipFile ≠ PyError.fileInZipNotFound ∧
      PyError.badZipFile ≠ PyError.emptyHealthData ∧
      PyError.badZipFile ≠ PyError.invalidXML :=
  ⟨rfl, rfl, by decide, by decide, by decide⟩

/-- C8: on every exit path of `open_export_zip` that acquires the archive
handle — missing member, and a body that returns or raises — the handle is
released before control leaves; on a non-zip path no archive handle is ever
acquired. -/
theorem C8_handle_released {α : Type} (body : XMLDoc → Except PyError α)
    (members : List (String × XMLDoc)) :
    (open_export_zip_run (ZipSource.zip members) body).2
        = [HandleEv.acquire, HandleEv.release] ∧
      (open_export_zip_run ZipSource.notAZip body).2 = [] := by
  constructor
  · unfold open_export_zip_run
    dsimp only
    cases hm : zipMemberLast members export_file_name <;> rfl
  · rfl

/-- C9 counterexample: a step record whose `value` attribute is `-5` flows
through `int()` and extraction succeeds with a negative row, so the code
does not guarantee non-negative steps. -/
theorem C9_counterexample :
    extract_daily_steps_from_zip (ZipSource.zip [(export_file_name, negativeDoc)])
        = .ok ⟨"ihealth_step_counts", ⟨"Number of steps", "Aantal stappen"⟩,
            [("2020-01-01", -5)]⟩ ∧
      ((-5 : Int) < 0) :=
  ⟨rfl, by decide⟩

/-- C9 amended: steps values are whatever `int()` parses from the `value`
attribute, which may be negative; and the pandas int64 group sum can wrap a
non-negative per-day total into a negative row.  Whenever every collected
record's value is non-negative and every per-day sum fits in int64 (both
true of real pedometer data), every buffered `StepRec` and every returned
row is non-negative.  Non-negativity is preserved, not enforced. -/
theorem C9_steps_nonneg_amended (members : List (String × XMLDoc)) (doc : XMLDoc)
    (res : ExtractionResult)
    (hm : zipMemberLast members export_file_name = some doc)
    (hok : extract_daily_steps_from_zip (.zip members) = .ok res)
    (hpos : ∀ r ∈ doc.events.filterMap qualRec, 0 ≤ r.steps)
    (hfit : ∀ k ∈ groupKeys (doc.events.filterMap qualRec),
      fitsInt64 ((((doc.events.filterMap qualRec).filter
          fun r => dateKey r = k).map StepRec.steps).sum) = true) :
    (∀ recs, parse_health_data doc = .ok recs → ∀ r ∈ recs, 0 ≤ r.steps) ∧
      ∀ p ∈ res.data_frame, 0 ≤ p.2 := by
  obtain ⟨members2, doc2, recs, hz, hm2, hparse, hdf⟩ := extract_ok_shape _ _ hok
  obtain rfl : members = members2 := by injection hz
  have hdd : doc2 = doc := by rw [hm] at hm2; exact (Option.some.inj hm2).symm
  have hrecs := (parse_health_data_ok doc2 recs hparse).1
  rw [hdd] at hrecs
  rw [← hrecs] at hfit
  constructor
  · intro recs2 hp2
    have h2 := (parse_health_data_ok doc recs2 hp2).1
    intro r hr
    exact hpos r (h2 ▸ hr)
  · intro p hp
    rw [hdf] at hp
    refine dailySteps_nonneg recs ?_ hfit p hp
    intro r hr
    exact hpos r (hrecs ▸ hr)

/-- Witness for the amended C9 on `sampleDoc`, whose values are all
non-negative and whose per-day sums fit int64. -/
theorem C9_steps_nonneg_amended_witness :
    zipMemberLast [(export_file_name, sampleDoc)] export_file_name
        = some sampleDoc ∧
      extract_daily_steps_from_zip (ZipSource.zip [(export_file_name, sampleDoc)])
        = .ok sampleResult ∧
      (∀ r ∈ sampleDoc.events.filterMap qualRec, 0 ≤ r.steps) ∧
      (∀ k ∈ groupKeys (sampleDoc.events.filterMap qualRec),
        fitsInt64 ((((sampleDoc.events.filterMap qualRec).filter
            fun r => dateKey r = k).map StepRec.steps).sum) = true) ∧
      ((∀ recs, parse_health_data sampleDoc = .ok recs → ∀ r ∈ recs, 0 ≤ r.steps) ∧
        ∀ p ∈ sampleResult.data_frame, 0 ≤ p.2) :=
  ⟨rfl, rfl, by decide, by decide,
    C9_steps_nonneg_amended [(export_file_name, sampleDoc)]
      sampleDoc sampleResult rfl rfl (by decide) (by decide)⟩

/-- C10: well-formed inputs exist on which the handler raises a bare
`ValueError` or `KeyError` — a non-integer `value`, a `startDate` not
matching the format, a `Record` with no `type` attribute — and these escape
`parse_health_data` unwrapped, as error kinds outside the three the script
declares. -/
theorem C10_uncaught_library_errors :
    parse_health_data badValueDoc = .error .valueError ∧
      parse_health_data badDateDoc = .error .valueError ∧
      parse_health_data noTypeDoc = .error .keyError ∧
      extract_daily_steps_from_zip (.zip [(export_file_name, badValueDoc)])
        = .error .valueError ∧
      PyError.valueError ∉ pipelineDeclaredErrors ∧
      PyError.keyError ∉ pipelineDeclaredErrors :=
  ⟨rfl, rfl, rfl, rfl, by decide, by decide⟩
